import Mathlib

/-!
# A shallow embedding of lnav's `logfile.cc` incremental indexing engine

This file models the data and control flow of `src/logfile.cc`: the
per-line scan step `logfile::process_prefix`, the poll-driven
`logfile::rebuild_index`, the read-back operations `logfile::line_length`
and `logfile::read_full_message`, and the identity query `logfile::exists`.

Collaborators that the source consumes through interfaces (the line
buffer, the pluggable log formats, the observers) are modelled as
explicit data: the line buffer becomes a concrete byte-list file with the
operations the engine calls (`load_next_line`, `read_range`,
`is_data_available`, `get_file_time`), a format becomes a record holding
its scan function, and observer callbacks become an event trace returned
alongside the new state.

Pieces of the repository that live in `logfile.hh` / `lnav_util.hh`
rather than in `logfile.cc` (the `logline` record and its ordering, the
`close()` transition, `hash_string`, the default argument of
`line_length`) are modelled from the specification and are marked as such
in their doc comments.
-/

set_option maxHeartbeats 1000000

/-- The level-and-flags byte of a `logline`.
Modelled from the spec: a level value plus a "continued" flag meaning
"no independent timestamp, inherits predecessor's"
(`log_level_t` with `LEVEL_CONTINUED` lives in the headers, not in
`src/`). -/
structure LevelFlags where
  base : Nat
  continued : Bool
  deriving DecidableEq, Repr

/-- `LEVEL_UNKNOWN`: the default level with no flags. -/
def LevelFlags.unknown : LevelFlags := ⟨0, false⟩

/-- One index entry (`logline` in the source): byte offset of the line
start, sub-offset (0 heads a logical-line group), timestamp seconds,
sub-second milliseconds, level-and-flags, module id, opid, valid-UTF-8
flag and time-skew flag. -/
structure logline where
  offset : Nat
  sub_offset : Nat
  time : Int
  millis : Nat
  level : LevelFlags
  module_id : Nat
  opid : Nat
  valid_utf : Bool
  time_skew : Bool
  deriving DecidableEq, Repr

instance : Inhabited logline :=
  ⟨{ offset := 0, sub_offset := 0, time := 0, millis := 0,
     level := LevelFlags.unknown, module_id := 0, opid := 0,
     valid_utf := true, time_skew := false }⟩

/-- Modelled from the spec: `logline::operator<` (declared in
`logfile.hh`, not under `src/`) — the ordering used by the out-of-order
check compares only the timestamp: seconds first, then the sub-second
component. -/
def logline_lt (a b : logline) : Bool :=
  a.time < b.time || (a.time == b.time && a.millis < b.millis)

/-- Modelled from the spec: the content identity hash (`hash_string` in
`lnav_util`, not under `src/`).  The hash is modelled as the identity
embedding of its input string, which preserves exactly the distinction
the spec draws (hash derived from the first matched line's bytes vs.
derived from the filename). -/
structure ContentHash where
  source : String
  deriving DecidableEq, Repr

/-- `hash_string` applied to a string. -/
def hash_string (s : String) : ContentHash := ⟨s⟩

/-- View a byte list as the string handed to `hash_string` in
`hash_string(string(sbr.get_data(), sbr.length()))`. -/
def bytesToString (l : List Nat) : String :=
  ⟨l.map Char.ofNat⟩

/-- Byte list of a string literal (for building concrete file contents). -/
def strBytes (s : String) : List Nat :=
  s.toList.map Char.toNat

/-- `log_format::scan_result_t`. -/
inductive ScanResult where
  | scan_match
  | scan_no_match
  | scan_incomplete
  deriving DecidableEq, Repr

/-- A byte range in the file (`file_range`). -/
structure FileRange where
  fr_offset : Nat
  fr_length : Nat
  deriving DecidableEq, Repr

/-- `file_range::next_offset`. -/
def FileRange.next_offset (r : FileRange) : Nat := r.fr_offset + r.fr_length

/-- The line descriptor returned by `line_buffer::load_next_line`
(`line_info`).  `li_open_ended` is `li_partial` in the source (the file
currently ends mid-line, no terminator yet); renamed here. -/
structure LineInfo where
  li_file_range : FileRange
  li_open_ended : Bool
  li_valid_utf : Bool
  deriving DecidableEq, Repr

/-- A pluggable log format (the `log_format` collaborator, specified by
its capability contract): a filename-matching rule, the time-ordered
declaration (`lf_time_ordered`), the scan operation (which may append to
or reshape the index and reports match/no-match/incomplete), and the
full-message extraction `get_subline(..., full=true)`.  `specialized()`
is modelled as the identity (the bound copy behaves as the matcher). -/
structure LogFormat where
  name : String
  time_ordered : Bool
  match_name : String → Bool
  scan : List logline → LineInfo → List Nat → ScanResult × List logline
  get_subline_full : logline → List Nat → List Nat

/-- `MAX_UNRECOGNIZED_LINES` from the source. -/
def MAX_UNRECOGNIZED_LINES : Nat := 1000

/-- A stat snapshot (the fields of `struct stat` the engine reads). -/
structure StatInfo where
  size : Nat
  mtime : Int
  dev : Nat
  ino : Nat
  deriving DecidableEq, Repr

/-- The underlying file as seen through the line buffer: its bytes, its
stat mtime, the line-source-reported file time (`get_file_time`; 0 when
the source reports none), and its identity. -/
structure FileContent where
  bytes : List Nat
  mtime : Int
  file_time : Int
  dev : Nat
  ino : Nat

/-- The stat result for a file (`fstat` in `rebuild_index`). -/
def fileStat (f : FileContent) : StatInfo :=
  ⟨f.bytes.length, f.mtime, f.dev, f.ino⟩

/-- Index of the first newline byte in a list, if any. -/
def findNL : List Nat → Option Nat
  | [] => none
  | b :: rest => if b = 10 then some 0 else (findNL rest).map (· + 1)

/-- `line_buffer::load_next_line` over the modelled file: the next
complete line after `prev`, or the open-ended tail when no terminator
has been written yet, or nothing (an empty range, modelled as `none`)
at end of file. -/
def load_next_line (f : FileContent) (prev : FileRange) : Option LineInfo :=
  let start := prev.next_offset
  if start < f.bytes.length then
    match findNL (f.bytes.drop start) with
    | some k => some ⟨⟨start, k + 1⟩, false, true⟩
    | none => some ⟨⟨start, f.bytes.length - start⟩, true, true⟩
  else none

/-- Whether `line_buffer::read_range` succeeds on `{off, len}`: the
range must lie within the available bytes. -/
def read_ok (f : FileContent) (off len : Nat) : Bool :=
  off + len ≤ f.bytes.length

/-- The bytes delivered by a successful `read_range`. -/
def readBytes (f : FileContent) (r : FileRange) : List Nat :=
  (f.bytes.drop r.fr_offset).take r.fr_length

/-- `is_line_ending` — a trailing line-terminator byte (LF or CR).
Modelled from the spec: the helper lives in `lnav_util`, not `src/`. -/
def is_line_ending (b : Nat) : Bool := b == 10 || b == 13

/-- `shared_buffer_ref::rtrim(is_line_ending)`: strip trailing
terminator bytes. -/
def rtrimEol (l : List Nat) : List Nat :=
  (l.reverse.dropWhile is_line_ending).reverse

/-- `line_buffer::is_data_available(index_size, stat_size)`: bytes exist
beyond the indexed extent. -/
def is_data_available (index_size stat_size : Nat) : Bool :=
  index_size < stat_size

/-- The state of one `logfile` instance: the fields of the class that
the modelled operations read or write.  `open_ended` is
`lf_partial_line` in the source (renamed).  `closed` is the
closed/invalid terminal state entered by `close()`. -/
structure LogfileState where
  filename : String
  valid_filename : Bool
  stat : StatInfo
  content_id : ContentHash
  format : Option LogFormat
  index : List logline
  index_size : Nat
  index_time : Int
  open_ended : Bool
  longest_line : Nat
  next_line_cache : Option (Nat × Nat)
  out_of_time_order_count : Nat
  sort_needed : Bool
  detect_format : Bool
  closed : Bool
  polls : Nat
  reads : Nat

/-- The `logfile` constructor as far as the modelled state goes:
snapshot the stat, derive the content identity from the filename,
start with an empty index. -/
def logfile_new (filename : String) (stt : StatInfo) (detect : Bool) : LogfileState :=
  { filename := filename, valid_filename := true, stat := stt,
    content_id := hash_string filename, format := none, index := [],
    index_size := 0, index_time := 0, open_ended := false,
    longest_line := 0, next_line_cache := none,
    out_of_time_order_count := 0, sort_needed := false,
    detect_format := detect, closed := false, polls := 0, reads := 0 }

/-- Modelled from the spec: `logfile::close()` (declared in
`logfile.hh`, not under `src/`) — release resources and transition to
the closed terminal state. -/
def close (st : LogfileState) : LogfileState := { st with closed := true }

/-- `logfile::exists()`: compare the stored snapshot against a live
stat of the path (`none` models a failing `::stat`).  A handle-opened
file (no valid filename) always reports `true`. -/
def logfile_exists (st : LogfileState) (live : Option StatInfo) : Bool :=
  if !st.valid_filename then true
  else
    match live with
    | none => false
    | some s =>
        st.stat.dev == s.dev && st.stat.ino == s.ino &&
          Nat.ble st.stat.size s.size

/-- The backfill loop at format lock-in: overwrite the timestamp and
sub-second value of every entry except the last with the given values
(`for lpc < size - 1: set_time/set_millis`). -/
def backfill_times (t : Int) (m : Nat) : List logline → List logline
  | [] => []
  | [e] => [e]
  | e :: e' :: rest =>
      { e with time := t, millis := m } :: backfill_times t m (e' :: rest)

/-- Backfill an index to its last entry's timestamp (the lock-in
rewrite in `process_prefix`). -/
def backfill (idx : List logline) : List logline :=
  match idx.getLast? with
  | none => idx
  | some last => backfill_times last.time last.millis idx

/-- The auto-detection loop of `process_prefix`: try each root format
whose name rule accepts the filename, in order, stopping at the first
match; `found` carries the result of the last scan attempted.  On a
match the index is backfilled and the newly bound format together with
the recomputed content hash is reported. -/
def detect_loop (formats : List LogFormat) (filename : String)
    (idx : List logline) (li : LineInfo) (sbr : List Nat)
    (found : ScanResult) :
    ScanResult × List logline × Option (LogFormat × ContentHash) :=
  match formats with
  | [] => (found, idx, none)
  | fmt :: rest =>
      if fmt.match_name filename then
        match fmt.scan idx li sbr with
        | (ScanResult.scan_match, idx') =>
            (ScanResult.scan_match, backfill idx',
             some (fmt, hash_string (bytesToString sbr)))
        | (r, idx') => detect_loop rest filename idx' li sbr r
      else detect_loop rest filename idx li sbr found

/-- `back().set_valid_utf(v)` guarded by non-emptiness: rewrite the
UTF-validity flag of the last entry, leaving everything else alone. -/
def set_last_valid_utf (idx : List logline) (v : Bool) : List logline :=
  match idx with
  | [] => []
  | [e] => [{ e with valid_utf := v }]
  | e :: e' :: rest => e :: set_last_valid_utf (e' :: rest) v

/-- The clock-skew rewrite loop: from position `k` on, force each
entry's timestamp and sub-second value to the given ones and set its
time-skew flag. -/
def apply_skew (t : Int) (m : Nat) : Nat → List logline → List logline
  | _, [] => []
  | 0, e :: rest =>
      { e with time := t, millis := m, time_skew := true } ::
        apply_skew t m 0 rest
  | k + 1, e :: rest => e :: apply_skew t m k rest

/-- The first phase of `process_prefix`: compute the scan result
`found`, the `prescan_time` (the first entry's timestamp, recorded only
when a format is already bound and the index is non-empty; 0
otherwise), and the state after the scan (including format lock-in,
content-hash replacement and backfill on first detection). -/
def compute_found (roots : List LogFormat) (st : LogfileState)
    (sbr : List Nat) (li : LineInfo) :
    ScanResult × Int × LogfileState :=
  match st.format with
  | some fmt =>
      let pt : Int := if st.index.isEmpty then 0 else (st.index.headD default).time
      let r := fmt.scan st.index li sbr
      (r.1, pt, { st with index := r.2 })
  | none =>
      if st.detect_format && st.index.length < MAX_UNRECOGNIZED_LINES then
        match detect_loop roots st.filename st.index li sbr ScanResult.scan_no_match with
        | (r, idx', some (fmt, cid)) =>
            (r, 0, { st with index := idx', format := some fmt, content_id := cid })
        | (r, idx', none) => (r, 0, { st with index := idx' })
      else (ScanResult.scan_no_match, 0, st)

/-- The second phase of `process_prefix`: the `switch (found)`.  On a
match, record the line's UTF-8 validity on the last entry, signal a
resort when the first entry's timestamp differs from `prescan_time`,
and classify an out-of-order new entry as clock skew (rewrite from
`prescan_size` on, count it) for a time-ordered format or as a resort
signal otherwise.  On no match, append one continuation entry
inheriting the previous entry's metadata.  On incomplete, do nothing. -/
def apply_found (prescan_size : Nat) (found : ScanResult) (prescan_time : Int)
    (st1 : LogfileState) (li : LineInfo) : Bool × LogfileState :=
  match found with
  | ScanResult.scan_match =>
      let idxA := set_last_valid_utf st1.index li.li_valid_utf
      let retval1 : Bool :=
        !idxA.isEmpty && !(prescan_time == (idxA.headD default).time)
      if 0 < prescan_size ∧ prescan_size < idxA.length then
        let second_to_last := idxA.getD (prescan_size - 1) default
        let latest := idxA.getD prescan_size default
        if logline_lt latest second_to_last then
          match st1.format with
          | some fmt =>
              if fmt.time_ordered then
                (retval1,
                 { st1 with
                     index := apply_skew second_to_last.time second_to_last.millis
                       prescan_size idxA,
                     out_of_time_order_count := st1.out_of_time_order_count + 1 })
              else (true, { st1 with index := idxA })
          | none => (retval1, { st1 with index := idxA })
        else (retval1, { st1 with index := idxA })
      else (retval1, { st1 with index := idxA })
  | ScanResult.scan_no_match =>
      let e : logline :=
        match st1.index.getLast? with
        | none =>
            { offset := li.li_file_range.fr_offset, sub_offset := 0,
              time := st1.index_time, millis := 0,
              level := LevelFlags.unknown, module_id := 0, opid := 0,
              valid_utf := li.li_valid_utf, time_skew := false }
        | some ll =>
            { offset := li.li_file_range.fr_offset, sub_offset := 0,
              time := ll.time, millis := ll.millis,
              level := if st1.format.isSome then { ll.level with continued := true }
                       else LevelFlags.unknown,
              module_id := ll.module_id, opid := ll.opid,
              valid_utf := li.li_valid_utf, time_skew := false }
      (false, { st1 with index := st1.index ++ [e] })
  | ScanResult.scan_incomplete => (false, st1)

/-- `logfile::process_prefix`: scan one raw line (with format
auto-detection while unbound) and classify the result; returns the
resort-required flag and the updated state. -/
def process_prefix (roots : List LogFormat) (st : LogfileState)
    (sbr : List Nat) (li : LineInfo) : Bool × LogfileState :=
  let prescan_size := st.index.length
  let fr := compute_found roots st sbr li
  apply_found prescan_size fr.1 fr.2.1 fr.2.2 li

/-- `logfile::rebuild_result_t`.  Modelled from the spec: the enum is
declared in `logfile.hh`; the four outcomes are named in §4.1. -/
inductive RebuildResult where
  | no_new_lines
  | new_lines
  | new_order
  | invalid
  deriving DecidableEq, Repr

/-- Observer callbacks recorded as an event trace: `logline_restart`
(with the rollback count), `logline_new_line` (with the position of the
new entry), `logfile_indexing` (progress) and `logline_eof`. -/
inductive ObsEvent where
  | restart (dropped : Nat)
  | new_line (pos : Nat)
  | indexing (off : Nat) (total : Nat)
  | eof
  deriving DecidableEq, Repr

/-- The rollback of `rebuild_index`: pop continuation entries
(`sub_offset != 0`) off the tail, then pop the group's head row,
returning the remaining index and the number of rows dropped.  (When
every entry is a continuation row the source would pop from an empty
vector; the model stops at the empty index.) -/
def rollbackIndex (idx : List logline) : List logline × Nat :=
  let rev := idx.reverse
  let t := (rev.takeWhile (fun e => e.sub_offset != 0)).length
  match rev.dropWhile (fun e => e.sub_offset != 0) with
  | [] => ([], t)
  | _ :: rest => (rest.reverse, t + 1)

/-- The `logline_new_line` notifications for entries `[a, b)`. -/
def newLineEvents (a b : Nat) : List ObsEvent :=
  (List.range' a (b - a)).map ObsEvent.new_line

/-- The scan loop of `rebuild_index`: load the next complete line,
update the indexed extent and tail flag, run ` process_prefix`, notify
observers, and stop when no more lines are available or when the format
was just bound (`!has_format && lf_format != nullptr`).  The fuel
argument bounds the recursion; each iteration consumes at least one
byte, so `rebuild_index` passes fuel that can never run out.
(The first-iteration text-format sniffing and the rusage diagnostics of
the source are pure diagnostics and are not modelled; read errors
cannot occur in the modelled line buffer, so the mid-pass
`RR_INVALID` exits are unreachable here.) -/
def scan_loop (roots : List LogFormat) (f : FileContent) (total : Nat)
    (has_format : Bool) :
    Nat → LogfileState → FileRange → Bool →
    LogfileState × FileRange × Bool × List ObsEvent
  | 0, st, prev, sortNeeded => (st, prev, sortNeeded, [])
  | fuel + 1, st, prev, sortNeeded =>
      match load_next_line f prev with
      | none => (st, prev, sortNeeded, [])
      | some li =>
          let prev' := li.li_file_range
          let old_size := st.index.length
          let st := { st with index_size := prev'.next_offset }
          let sbr := rtrimEol (readBytes f prev')
          let st := { st with longest_line := max st.longest_line sbr.length,
                              open_ended := li.li_open_ended }
          let pr := process_prefix roots st sbr li
          let st := pr.2
          let sortNeeded := pr.1 || sortNeeded
          let old_size := if st.index.length < old_size then 0 else old_size
          let evts := newLineEvents old_size st.index.length ++
            [ObsEvent.indexing prev'.next_offset total]
          if !has_format && st.format.isSome then
            (st, prev', sortNeeded, evts)
          else
            let rr := scan_loop roots f total has_format fuel st prev' sortNeeded
            (rr.1, rr.2.1, rr.2.2.1, evts ++ rr.2.2.2)

/-- The tail of `rebuild_index` shared by the no-data and completed-pass
exits: refresh the cached index time from the line source (falling back
to the stat mtime) and reset the out-of-time-order counter (after
logging it) when it is non-zero. -/
def refresh_tail (f : FileContent) (stt : StatInfo) (st : LogfileState) :
    LogfileState :=
  let it := if f.file_time = 0 then stt.mtime else f.file_time
  let st := { st with index_time := it }
  if st.out_of_time_order_count ≠ 0 then { st with out_of_time_order_count := 0 }
  else st

/-- The body of a rebuild pass after rollback and revalidation: notify
the restart, latch-and-clear the pending resort flag, run the scan loop
from the rollback point, advance the indexed extent, replace the stat
snapshot, and classify the pass as `NewOrder` or `NewLines`. -/
def run_pass (roots : List LogFormat) (f : FileContent) (stt : StatInfo)
    (has_format : Bool) (off rollback_size : Nat) (st : LogfileState) :
    (RebuildResult × LogfileState × List ObsEvent) :=
  let sortNeeded := st.sort_needed
  let st := { st with sort_needed := false }
  let lr := scan_loop roots f stt.size has_format (f.bytes.length + 1) st
    ⟨off, 0⟩ sortNeeded
  let st := lr.1
  let prevR := lr.2.1
  let sortNeeded := lr.2.2.1
  let events := ObsEvent.restart rollback_size :: (lr.2.2.2 ++ [ObsEvent.eof])
  let st := { st with index_size := prevR.next_offset, stat := stt }
  let retval := if sortNeeded then RebuildResult.new_order
                else RebuildResult.new_lines
  (retval, refresh_tail f stt st, events)

/-- `logfile::rebuild_index`: stat the file; treat a shrunken size (or
an unchanged size with a changed mtime) as an overwritten file (close,
`NoNewLines`); when bytes exist beyond the indexed extent, roll back the
last logical-line group, revalidate the residual tail row (closing with
`Invalid` on a failed read), and run the scan pass; otherwise return
`NoNewLines` leaving the index untouched.  Returns the pass result, the
new state and the observer event trace. -/
def rebuild_index (roots : List LogFormat) (f : FileContent)
    (st0 : LogfileState) : RebuildResult × LogfileState × List ObsEvent :=
  let st := { st0 with polls := st0.polls + 1 }
  let stt := fileStat f
  if stt.size < st.stat.size ∨
      (st.stat.size = stt.size ∧ st.stat.mtime ≠ stt.mtime) then
    (RebuildResult.no_new_lines, close st, [])
  else if is_data_available st.index_size stt.size then
    let st := { st with reads := st.reads + 1 }
    let has_format := st.format.isSome
    match st.index.getLast? with
    | some lastE =>
        let rb := rollbackIndex st.index
        let st1 := { st with index := rb.1 }
        let revalid_ok :=
          match rb.1.getLast? with
          | some chk => read_ok f chk.offset (st.index_size - chk.offset)
          | none => true
        if revalid_ok then run_pass roots f stt has_format lastE.offset rb.2 st1
        else (RebuildResult.invalid, close st1, [])
    | none => run_pass roots f stt has_format 0 0 st
  else
    (RebuildResult.no_new_lines, refresh_tail f stt st, [])

/-- The boundary search of `line_length`: advance past entries sharing
the queried start offset (and past continuation rows when
`include_continues` is set); return the first entry past those, if
any.  Applied to the entries after the queried position. -/
def findNext (entries : List logline) (baseOff : Nat) (include_continues : Bool) :
    Option logline :=
  match entries with
  | [] => none
  | e :: rest =>
      if e.offset == baseOff || (include_continues && e.level.continued) then
        findNext rest baseOff include_continues
      else some e

/-- `logfile::line_length`: byte length of the line (or, with
`include_continues`, of the whole logical message) at index position
`pos`.  A non-continuation query first consults the one-entry length
cache keyed by start offset; a computed non-continuation middle-case
length refreshes the cache.  Returns the length and the state with the
possibly-updated cache. -/
def line_length (st : LogfileState) (pos : Nat) (include_continues : Bool) :
    Nat × LogfileState :=
  let ll := st.index.getD pos default
  let cached : Option Nat :=
    if !include_continues then
      match st.next_line_cache with
      | some c => if ll.offset == c.1 then some c.2 else none
      | none => none
    else none
  match cached with
  | some len => (len, st)
  | none =>
      match findNext (st.index.drop (pos + 1)) ll.offset include_continues with
      | none =>
          let r0 := st.index_size - ll.offset
          let r := if 0 < r0 ∧ !st.open_ended then r0 - 1 else r0
          (r, st)
      | some nl =>
          let r := nl.offset - ll.offset - 1
          let st := if !include_continues then
              { st with next_line_cache := some (ll.offset, r) }
            else st
          (r, st)

/-- The length computation as the claim words it (refinement target,
stated from the claim, not from the source): scan forward to the next
entry whose start offset differs (also skipping continuation rows when
they are requested to be included) and return the byte distance from
the queried entry's start offset to that boundary; when no such later
entry exists, return the indexed byte extent minus the start offset,
subtracting one terminator byte unless the file's tail is currently
partial. -/
def line_length_claimed (st : LogfileState) (pos : Nat)
    (include_continues : Bool) : Nat :=
  let ll := st.index.getD pos default
  match findNext (st.index.drop (pos + 1)) ll.offset include_continues with
  | none =>
      let r0 := st.index_size - ll.offset
      if !st.open_ended then r0 - 1 else r0
  | some nl => nl.offset - ll.offset

/-- `logfile::read_full_message`: read the whole logical message headed
at index position `pos` into the output buffer.  The length is computed
with continuation rows included (the default argument of `line_length`
in the header, modelled from the spec: "including all continuation
rows").  On a failed underlying read the output buffer is returned
unmodified and no error is reported (the source returns early and
swallows `line_buffer::error`).  The `max_lines` argument of the source
is accepted and, as in the source body, unused. -/
def read_full_message (f : FileContent) (st : LogfileState) (pos : Nat)
    (msg_out : List Nat) (max_lines : Nat) : List Nat × LogfileState :=
  let ll := st.index.getD pos default
  let lr := line_length st pos true
  let line_len := lr.1
  let st1 := lr.2
  let _ := max_lines
  if read_ok f ll.offset line_len then
    let m := readBytes f ⟨ll.offset, line_len⟩
    let m := match st1.format with
             | some fmt => fmt.get_subline_full ll m
             | none => m
    (m, st1)
  else (msg_out, st1)

/-- Byte is an ASCII digit. -/
def isDigit (b : Nat) : Bool := 48 ≤ b && b ≤ 57

/-- Parse a leading `HH:MM:SS` timestamp from raw line bytes, as the
seconds since midnight; `none` when the prefix does not look like a
timestamp.  (A concrete stand-in for a format's regex scanner, used
only to instantiate scenarios.) -/
def parseHMS (l : List Nat) : Option Nat :=
  match l with
  | h1 :: h2 :: c1 :: m1 :: m2 :: c2 :: s1 :: s2 :: _ =>
      if isDigit h1 && isDigit h2 && c1 == 58 && isDigit m1 && isDigit m2 &&
          c2 == 58 && isDigit s1 && isDigit s2 then
        some (((h1 - 48) * 10 + (h2 - 48)) * 3600 +
              ((m1 - 48) * 10 + (m2 - 48)) * 60 + (s1 - 48) * 10 + (s2 - 48))
      else none
  | _ => none

/-- A concrete single-line format recognizing `HH:MM:SS`-prefixed
lines: on a match it appends one entry carrying the parsed timestamp. -/
def mkTimeFmt (ordered : Bool) : LogFormat :=
  { name := "hms", time_ordered := ordered, match_name := fun _ => true,
    scan := fun idx li sbr =>
      match parseHMS sbr with
      | some t =>
          (ScanResult.scan_match,
           idx ++ [{ offset := li.li_file_range.fr_offset, sub_offset := 0,
                     time := (t : Int), millis := 0, level := ⟨2, false⟩,
                     module_id := 0, opid := 0, valid_utf := true,
                     time_skew := false }])
      | none => (ScanResult.scan_no_match, idx),
    get_subline_full := fun _ m => m }

/-- The `HH:MM:SS` format declared time-ordered. -/
def hmsOrdered : LogFormat := mkTimeFmt true

/-- The `HH:MM:SS` format declared not time-ordered. -/
def hmsUnordered : LogFormat := mkTimeFmt false

/-- A concrete ISO-prefix format: matches lines starting with the fixed
stamp `2023-01-01T10:00:00` and appends one entry at time 1672567200. -/
def isoFmt : LogFormat :=
  { name := "iso", time_ordered := true, match_name := fun _ => true,
    scan := fun idx li sbr =>
      if (strBytes "2023-01-01T10:00:00").isPrefixOf sbr then
        (ScanResult.scan_match,
         idx ++ [{ offset := li.li_file_range.fr_offset, sub_offset := 0,
                   time := 1672567200, millis := 0, level := ⟨2, false⟩,
                   module_id := 0, opid := 0, valid_utf := true,
                   time_skew := false }])
      else (ScanResult.scan_no_match, idx),
    get_subline_full := fun _ m => m }

/-- The two-line file of the skew scenario: `10:00:02` then `10:00:01`. -/
def fileTwoLines : FileContent :=
  ⟨strBytes "10:00:02 a\n10:00:01 b\n", 7, 0, 1, 1⟩

/-- A logfile state with the time-ordered `HH:MM:SS` format already
bound and nothing indexed yet (stat snapshot of an empty file). -/
def stBoundEmpty : LogfileState :=
  { logfile_new "test.log" ⟨0, 3, 1, 1⟩ true with format := some hmsOrdered }


/-- Entry fixture: a sub-offset-0 entry at offset 0, time 36000
(`10:00:00` as seconds since midnight). -/
def e36000 : logline :=
  { offset := 0, sub_offset := 0, time := 36000, millis := 0,
    level := ⟨2, false⟩, module_id := 0, opid := 0, valid_utf := true,
    time_skew := false }

/-- Entry fixture: offset 11, time 36002 (`10:00:02`). -/
def e36002 : logline := { e36000 with offset := 11, time := 36002 }

/-- Entry fixture: offset 0, time 36001 (`10:00:01`). -/
def e36001 : logline := { e36000 with time := 36001 }

/-- Three-line file: `10:00:00`, `10:00:02`, `10:00:01`. -/
def fileThreeLines : FileContent :=
  ⟨strBytes "10:00:00 z\n10:00:02 a\n10:00:01 b\n", 7, 0, 1, 1⟩

/-- State with the time-ordered format bound and the first two lines of
`fileThreeLines` already indexed. -/
def stBoundTwo : LogfileState :=
  { logfile_new "test.log" ⟨22, 3, 1, 1⟩ true with
      format := some hmsOrdered, index := [e36000, e36002], index_size := 22 }

/-- State with the non-time-ordered format bound and nothing indexed. -/
def stBoundEmptyU : LogfileState :=
  { logfile_new "test.log" ⟨0, 3, 1, 1⟩ true with format := some hmsUnordered }

/-- The backfill scenario file: two unrecognized lines, then an
ISO-stamped line. -/
def fileGarbage : FileContent :=
  ⟨strBytes "garbage\ngarbage2\n2023-01-01T10:00:00 INFO start\n", 7, 0, 1, 1⟩

/-- A freshly constructed logfile (auto-detection on, nothing bound). -/
def stFresh : LogfileState := logfile_new "fresh.log" ⟨0, 3, 1, 1⟩ true

/-- An in-order two-line file: `10:00:01` then `10:00:02`. -/
def fileInOrder : FileContent := ⟨strBytes "10:00:01 a\n10:00:02 b\n", 7, 0, 1, 1⟩

/-- State with the ordered format bound and one entry indexed, whose
rollback empties the index. -/
def stBoundOne : LogfileState :=
  { logfile_new "test.log" ⟨11, 3, 1, 1⟩ true with
      format := some hmsOrdered, index := [e36001], index_size := 11 }

/-- Entry fixture for the rollback scenario (time 100 at offset 0). -/
def eA : logline :=
  { offset := 0, sub_offset := 0, time := 100, millis := 0,
    level := ⟨2, false⟩, module_id := 0, opid := 0, valid_utf := true,
    time_skew := false }

/-- Second group head at offset 5. -/
def eB : logline := { eA with offset := 5, time := 101 }

/-- Continuation row of the second group (sub-offset 1). -/
def eC : logline :=
  { eA with offset := 5, sub_offset := 1, time := 101, level := ⟨2, true⟩ }

/-- Rollback scenario state: two groups indexed, the last one with a
continuation row. -/
def stC4 : LogfileState :=
  { logfile_new "t.log" ⟨11, 3, 1, 1⟩ true with
      format := some hmsOrdered, index := [eA, eB, eC], index_size := 11 }

/-- Rollback scenario file (grew beyond the indexed extent). -/
def fileC4 : FileContent := ⟨strBytes "10:00:01 a\n1234\n", 7, 0, 1, 1⟩

/-- Truncation scenario: a 100-byte file was indexed. -/
def stC5 : LogfileState :=
  { logfile_new "t.log" ⟨100, 10, 7, 9⟩ true with index := [eA], index_size := 100 }

/-- The same file truncated to 50 bytes. -/
def fileC5 : FileContent := ⟨List.replicate 50 97, 11, 0, 7, 9⟩

/-- Fully indexed file for the idempotence scenario. -/
def fileC6 : FileContent := ⟨strBytes "10:00:01 a\n", 5, 0, 1, 1⟩

/-- State that already consumed all of `fileC6`, with a pending skew
count. -/
def stC6 : LogfileState :=
  { logfile_new "t.log" ⟨11, 5, 1, 1⟩ true with
      format := some hmsOrdered, index := [eA], index_size := 11,
      out_of_time_order_count := 3 }

/-- NoMatch-with-no-format scenario: detection on, one entry buffered,
no candidate formats. -/
def stC7 : LogfileState :=
  { logfile_new "t.log" ⟨0, 3, 1, 1⟩ true with index := [eA] }

/-- The line descriptor of the second unrecognized line. -/
def liC7 : LineInfo := ⟨⟨10, 6⟩, false, true⟩

/-- Two single-row groups at offsets 0 and 10, extent 20. -/
def stC8 : LogfileState :=
  { logfile_new "t.log" ⟨20, 3, 1, 1⟩ true with
      index := [eA, { eA with offset := 10 }], index_size := 20 }

/-- One entry, extent 32, file currently ends mid-line. -/
def stC8p : LogfileState :=
  { logfile_new "t.log" ⟨32, 3, 1, 1⟩ true with
      index := [eA], index_size := 32, open_ended := true }

/-- Read-failure scenario: the index claims 50 bytes but the live file
only has 5. -/
def stC9 : LogfileState :=
  { logfile_new "t.log" ⟨50, 3, 1, 1⟩ true with index := [eA], index_size := 50 }

/-- The shrunken file behind `stC9`. -/
def fileC9 : FileContent := ⟨strBytes "short", 3, 0, 1, 1⟩

/-! ## Helper lemmas about the index-rewriting primitives -/

theorem set_last_valid_utf_length (l : List logline) (v : Bool) :
    (set_last_valid_utf l v).length = l.length := by
  induction l with
  | nil => rfl
  | cons e rest ih =>
      cases rest with
      | nil => rfl
      | cons e' rest' => simpa [set_last_valid_utf] using ih

theorem set_last_valid_utf_getD_time (l : List logline) (v : Bool) (i : Nat) :
    ((set_last_valid_utf l v).getD i default).time = (l.getD i default).time ∧
    ((set_last_valid_utf l v).getD i default).millis = (l.getD i default).millis := by
  induction l generalizing i with
  | nil => exact ⟨rfl, rfl⟩
  | cons e rest ih =>
      cases rest with
      | nil =>
          cases i with
          | zero => exact ⟨rfl, rfl⟩
          | succ j => simp [set_last_valid_utf, List.getD_cons_succ]
      | cons e' rest' =>
          cases i with
          | zero => exact ⟨rfl, rfl⟩
          | succ j =>
              simpa [set_last_valid_utf, List.getD_cons_succ] using ih j

theorem set_last_valid_utf_getD_of_lt (l : List logline) (v : Bool) (i : Nat)
    (hi : i + 1 < l.length) :
    (set_last_valid_utf l v).getD i default = l.getD i default := by
  induction l generalizing i with
  | nil => rfl
  | cons e rest ih =>
      cases rest with
      | nil => simp at hi
      | cons e' rest' =>
          cases i with
          | zero => rfl
          | succ j =>
              have hj : j + 1 < (e' :: rest').length := by
                simpa [Nat.succ_lt_succ_iff] using hi
              simpa [set_last_valid_utf, List.getD_cons_succ] using ih j hj

theorem apply_skew_length (t : Int) (m : Nat) (k : Nat) (l : List logline) :
    (apply_skew t m k l).length = l.length := by
  induction l generalizing k with
  | nil => cases k <;> rfl
  | cons e rest ih =>
      cases k with
      | zero => simpa [apply_skew] using ih 0
      | succ k' => simpa [apply_skew] using ih k'

theorem apply_skew_getD_ge (t : Int) (m : Nat) (k i : Nat) (l : List logline)
    (hk : k ≤ i) (hi : i < l.length) :
    (apply_skew t m k l).getD i default =
      { l.getD i default with time := t, millis := m, time_skew := true } := by
  induction l generalizing k i with
  | nil => simp at hi
  | cons e rest ih =>
      cases k with
      | zero =>
          cases i with
          | zero => simp [apply_skew, List.getD_cons_zero]
          | succ j =>
              have hj : j < rest.length := by simpa [Nat.succ_lt_succ_iff] using hi
              simpa [apply_skew, List.getD_cons_succ] using
                ih 0 j (Nat.zero_le _) hj
      | succ k' =>
          cases i with
          | zero => exact absurd hk (by simp)
          | succ j =>
              have hj : j < rest.length := by simpa [Nat.succ_lt_succ_iff] using hi
              simpa [apply_skew, List.getD_cons_succ] using
                ih k' j (Nat.le_of_succ_le_succ hk) hj

theorem apply_skew_getD_lt (t : Int) (m : Nat) (k i : Nat) (l : List logline)
    (hik : i < k) :
    (apply_skew t m k l).getD i default = l.getD i default := by
  induction l generalizing k i with
  | nil => cases k <;> rfl
  | cons e rest ih =>
      cases k with
      | zero => simp at hik
      | succ k' =>
          cases i with
          | zero => rfl
          | succ j =>
              simpa [apply_skew, List.getD_cons_succ] using
                ih k' j (Nat.lt_of_succ_lt_succ hik)

theorem backfill_times_length (t : Int) (m : Nat) (l : List logline) :
    (backfill_times t m l).length = l.length := by
  induction l with
  | nil => rfl
  | cons e rest ih =>
      cases rest with
      | nil => rfl
      | cons e' rest' => simpa [backfill_times] using ih

theorem backfill_times_getD_lt (t : Int) (m : Nat) (l : List logline) (i : Nat)
    (hi : i + 1 < l.length) :
    (backfill_times t m l).getD i default =
      { l.getD i default with time := t, millis := m } := by
  induction l generalizing i with
  | nil => simp at hi
  | cons e rest ih =>
      cases rest with
      | nil => simp at hi
      | cons e' rest' =>
          cases i with
          | zero => rfl
          | succ j =>
              have hj : j + 1 < (e' :: rest').length := by
                simpa [Nat.succ_lt_succ_iff] using hi
              simpa [backfill_times, List.getD_cons_succ] using ih j hj

theorem backfill_times_getD_last (t : Int) (m : Nat) (l : List logline) (i : Nat)
    (hi : i + 1 = l.length) :
    (backfill_times t m l).getD i default = l.getD i default := by
  induction l generalizing i with
  | nil => simp at hi
  | cons e rest ih =>
      cases rest with
      | nil =>
          cases i with
          | zero => rfl
          | succ j => simp at hi
      | cons e' rest' =>
          cases i with
          | zero => simp at hi
          | succ j =>
              have hj : j + 1 = (e' :: rest').length := by
                simpa using hi
              simpa [backfill_times, List.getD_cons_succ] using ih j hj

theorem rollbackIndex_spec (idx : List logline) (hne : idx ≠ [])
    (h0 : (idx.headD default).sub_offset = 0) :
    ∃ kept dhead dtail,
      idx = kept ++ dhead :: dtail ∧
      dhead.sub_offset = 0 ∧
      (∀ e ∈ dtail, e.sub_offset ≠ 0) ∧
      rollbackIndex idx = (kept, dtail.length + 1) := by
  obtain ⟨h, t, rfl⟩ : ∃ h t, idx = h :: t := by
    cases idx with
    | nil => exact absurd rfl hne
    | cons h t => exact ⟨h, t, rfl⟩
  cases hdw : (h :: t).reverse.dropWhile (fun e => e.sub_offset != 0) with
  | nil =>
      exfalso
      have hall := List.dropWhile_eq_nil_iff.mp hdw
      have hmem : h ∈ (h :: t).reverse :=
        List.mem_reverse.mpr (List.mem_cons_self h t)
      have hph := hall h hmem
      simp only [bne_iff_ne, ne_eq, decide_eq_true_eq] at hph
      exact hph (by simpa using h0)
  | cons d rest =>
      have hsplit := List.takeWhile_append_dropWhile
        (fun e => e.sub_offset != 0) (h :: t).reverse
      rw [hdw] at hsplit
      have hidx : h :: t = rest.reverse ++ d ::
          ((h :: t).reverse.takeWhile (fun e => e.sub_offset != 0)).reverse := by
        conv_lhs => rw [← List.reverse_reverse (h :: t), ← hsplit]
        simp [List.reverse_append]
      refine ⟨rest.reverse, d,
        ((h :: t).reverse.takeWhile (fun e => e.sub_offset != 0)).reverse,
        hidx, ?_, ?_, ?_⟩
      · have hne' : (h :: t).reverse.dropWhile (fun e => e.sub_offset != 0) ≠ [] := by
          rw [hdw]; simp
        have hd := List.head_dropWhile_not
          (fun e => e.sub_offset != 0) (h :: t).reverse hne'
        have aux : ∀ (l : List logline) (hl : l ≠ []), l = d :: rest →
            l.head hl = d := by
          intro l hl heq; subst heq; rfl
        rw [aux _ hne' hdw] at hd
        simpa using hd
      · intro e he
        have hmem : e ∈ (h :: t).reverse.takeWhile (fun e => e.sub_offset != 0) := by
          rw [← List.mem_reverse]; simpa using he
        have := List.mem_takeWhile_imp hmem
        simpa using this
      · rw [rollbackIndex]
        simp only [hdw]
        simp [List.length_reverse]

theorem refresh_tail_index (f : FileContent) (stt : StatInfo)
    (st : LogfileState) : (refresh_tail f stt st).index = st.index := by
  simp only [refresh_tail]
  split <;> rfl

theorem refresh_tail_stat (f : FileContent) (stt : StatInfo)
    (st : LogfileState) : (refresh_tail f stt st).stat = st.stat := by
  simp only [refresh_tail]
  split <;> rfl

theorem refresh_tail_index_size (f : FileContent) (stt : StatInfo)
    (st : LogfileState) : (refresh_tail f stt st).index_size = st.index_size := by
  simp only [refresh_tail]
  split <;> rfl

theorem refresh_tail_index_time (f : FileContent) (stt : StatInfo)
    (st : LogfileState) :
    (refresh_tail f stt st).index_time =
      (if f.file_time = 0 then stt.mtime else f.file_time) := by
  simp only [refresh_tail]
  split <;> rfl

theorem refresh_tail_count (f : FileContent) (stt : StatInfo)
    (st : LogfileState) : (refresh_tail f stt st).out_of_time_order_count = 0 := by
  simp only [refresh_tail]
  split
  next => rfl
  next h => exact not_not.mp h

/-! ## Branch-computation helpers for `rebuild_index` -/

theorem rebuild_overwritten (roots : List LogFormat) (f : FileContent)
    (st : LogfileState)
    (hover : (fileStat f).size < st.stat.size ∨
      (st.stat.size = (fileStat f).size ∧ st.stat.mtime ≠ (fileStat f).mtime)) :
    rebuild_index roots f st =
      (RebuildResult.no_new_lines, close { st with polls := st.polls + 1 }, []) := by
  simp only [rebuild_index]
  split
  next => rfl
  next hc => exact absurd hover hc

theorem rebuild_no_data (roots : List LogFormat) (f : FileContent)
    (st : LogfileState)
    (hnotover : ¬((fileStat f).size < st.stat.size ∨
      (st.stat.size = (fileStat f).size ∧ st.stat.mtime ≠ (fileStat f).mtime)))
    (hnodata : ¬st.index_size < (fileStat f).size) :
    rebuild_index roots f st =
      (RebuildResult.no_new_lines,
       refresh_tail f (fileStat f) { st with polls := st.polls + 1 }, []) := by
  simp only [rebuild_index]
  split
  next hc => exact absurd hc hnotover
  next hc =>
    split
    next hd => exact absurd (by simpa [is_data_available] using hd) hnodata
    next hd => rfl

/-! ## Claim theorems -/

/-- Claim C5 (confirmed).  For every rebuild call where the live file
size is smaller than the stored size snapshot, or the size is unchanged
but the modification time differs from the snapshot, the instance
transitions to closed and the call returns `NoNewLines` without
scanning or mutating the index (no observer events are emitted, the
index and the stored snapshot are untouched); concretely, after
indexing a 100-byte file and truncating it to 50 bytes, rebuild
returns `NoNewLines`, the instance is closed, and `exists()` against
the truncated file thereafter returns `false`. -/
theorem c5_truncation_closes (roots : List LogFormat) (f : FileContent)
    (st : LogfileState)
    (hover : (fileStat f).size < st.stat.size ∨
      (st.stat.size = (fileStat f).size ∧ st.stat.mtime ≠ (fileStat f).mtime)) :
    ((rebuild_index roots f st).1 = RebuildResult.no_new_lines ∧
     (rebuild_index roots f st).2.1.closed = true ∧
     (rebuild_index roots f st).2.1.index = st.index ∧
     (rebuild_index roots f st).2.1.stat = st.stat ∧
     (rebuild_index roots f st).2.2 = []) ∧
    ((rebuild_index [] fileC5 stC5).1 = RebuildResult.no_new_lines ∧
     (rebuild_index [] fileC5 stC5).2.1.closed = true ∧
     logfile_exists (rebuild_index [] fileC5 stC5).2.1
       (some ⟨50, 11, 7, 9⟩) = false) := by
  have h1 := rebuild_overwritten roots f st hover
  refine ⟨⟨by rw [h1], by rw [h1]; rfl, by rw [h1]; rfl, by rw [h1]; rfl,
    by rw [h1]⟩, by decide, by decide, by decide⟩

/-- Claim C6 (confirmed).  For every rebuild call where the file is not
judged overwritten and no bytes exist beyond the last indexed extent,
the call returns `NoNewLines` and leaves the index unchanged, while
still refreshing the cached index time (the line-source file time,
falling back to the stat mtime) and resetting the out-of-order skew
counter to zero; consequently calling rebuild twice with no intervening
file growth yields `NoNewLines` both times and an index identical to
before. -/
theorem c6_idempotent_no_data (roots : List LogFormat) (f : FileContent)
    (st : LogfileState)
    (hnotover : ¬((fileStat f).size < st.stat.size ∨
      (st.stat.size = (fileStat f).size ∧ st.stat.mtime ≠ (fileStat f).mtime)))
    (hnodata : ¬st.index_size < (fileStat f).size) :
    (rebuild_index roots f st).1 = RebuildResult.no_new_lines ∧
    (rebuild_index roots f st).2.1.index = st.index ∧
    (rebuild_index roots f st).2.1.index_time =
      (if f.file_time = 0 then f.mtime else f.file_time) ∧
    (rebuild_index roots f st).2.1.out_of_time_order_count = 0 ∧
    (rebuild_index roots f (rebuild_index roots f st).2.1).1 =
      RebuildResult.no_new_lines ∧
    (rebuild_index roots f (rebuild_index roots f st).2.1).2.1.index = st.index := by
  have h1 := rebuild_no_data roots f st hnotover hnodata
  have hst : (rebuild_index roots f st).2.1.stat = st.stat := by
    rw [h1]; exact refresh_tail_stat _ _ _
  have hsiz : (rebuild_index roots f st).2.1.index_size = st.index_size := by
    rw [h1]; exact refresh_tail_index_size _ _ _
  have hidx : (rebuild_index roots f st).2.1.index = st.index := by
    rw [h1]; exact refresh_tail_index _ _ _
  have h2 := rebuild_no_data roots f (rebuild_index roots f st).2.1
    (by rw [hst]; exact hnotover) (by rw [hsiz]; exact hnodata)
  refine ⟨by rw [h1], hidx, ?_, by rw [h1]; exact refresh_tail_count _ _ _,
    by rw [h2], ?_⟩
  · rw [h1]; exact refresh_tail_index_time _ _ _
  · rw [h2]
    calc (refresh_tail f (fileStat f)
          { (rebuild_index roots f st).2.1 with
              polls := (rebuild_index roots f st).2.1.polls + 1 }).index
        = (rebuild_index roots f st).2.1.index := refresh_tail_index _ _ _
      _ = st.index := hidx

/-- Claim C6 witness: the hypotheses hold and the conclusions follow at
the fully indexed one-line file. -/
theorem c6_idempotent_no_data_witness :
    (¬((fileStat fileC6).size < stC6.stat.size ∨
      (stC6.stat.size = (fileStat fileC6).size ∧
       stC6.stat.mtime ≠ (fileStat fileC6).mtime))) ∧
    (¬stC6.index_size < (fileStat fileC6).size) ∧
    ((rebuild_index [] fileC6 stC6).1 = RebuildResult.no_new_lines ∧
     (rebuild_index [] fileC6 stC6).2.1.index = stC6.index ∧
     (rebuild_index [] fileC6 stC6).2.1.index_time =
       (if fileC6.file_time = 0 then fileC6.mtime else fileC6.file_time) ∧
     (rebuild_index [] fileC6 stC6).2.1.out_of_time_order_count = 0 ∧
     (rebuild_index [] fileC6 (rebuild_index [] fileC6 stC6).2.1).1 =
       RebuildResult.no_new_lines ∧
     (rebuild_index [] fileC6 (rebuild_index [] fileC6 stC6).2.1).2.1.index
       = stC6.index) :=
  ⟨by decide, by decide,
   c6_idempotent_no_data [] fileC6 stC6 (by decide) (by decide)⟩

/-- Claim C5 witness: the hypotheses hold and the conclusions follow at
the truncated file. -/
theorem c5_truncation_closes_witness :
    ((fileStat fileC5).size < stC5.stat.size ∨
      (stC5.stat.size = (fileStat fileC5).size ∧
       stC5.stat.mtime ≠ (fileStat fileC5).mtime)) ∧
    ((rebuild_index [] fileC5 stC5).1 = RebuildResult.no_new_lines ∧
     (rebuild_index [] fileC5 stC5).2.1.closed = true ∧
     (rebuild_index [] fileC5 stC5).2.1.index = stC5.index ∧
     (rebuild_index [] fileC5 stC5).2.1.stat = stC5.stat ∧
     (rebuild_index [] fileC5 stC5).2.2 = []) :=
  ⟨by decide,
   (c5_truncation_closes [] fileC5 stC5 (by decide)).1⟩

theorem run_pass_events_head (roots : List LogFormat) (f : FileContent)
    (stt : StatInfo) (hf : Bool) (off k : Nat) (st : LogfileState) :
    (run_pass roots f stt hf off k st).2.2.take 1 = [ObsEvent.restart k] := by
  rfl

/-- Claim C4 (confirmed).  At the start of every rebuild pass that
finds new data, if the index is non-empty (and well-formed: its first
entry heads a group and entry offsets lie within the indexed extent),
exactly the last logical-line group is removed from the index — every
trailing entry with non-zero sub-offset plus the single sub-offset-0
entry that heads the group — all other entries are kept untouched, and
the line observer's restart callback is the first event emitted,
carrying exactly the number of rows dropped. -/
theorem c4_rollback_last_group (roots : List LogFormat) (f : FileContent)
    (st : LogfileState)
    (hnotover : ¬((fileStat f).size < st.stat.size ∨
      (st.stat.size = (fileStat f).size ∧ st.stat.mtime ≠ (fileStat f).mtime)))
    (hdata : st.index_size < (fileStat f).size)
    (hne : st.index ≠ [])
    (h0 : (st.index.headD default).sub_offset = 0)
    (hoff : ∀ e ∈ st.index, e.offset ≤ st.index_size) :
    ∃ kept dhead dtail,
      st.index = kept ++ dhead :: dtail ∧
      dhead.sub_offset = 0 ∧
      (∀ e ∈ dtail, e.sub_offset ≠ 0) ∧
      rollbackIndex st.index = (kept, dtail.length + 1) ∧
      (rebuild_index roots f st).2.2.take 1 =
        [ObsEvent.restart (dtail.length + 1)] := by
  obtain ⟨kept, dhead, dtail, hsplit, hh, ht, hrb⟩ :=
    rollbackIndex_spec st.index hne h0
  refine ⟨kept, dhead, dtail, hsplit, hh, ht, hrb, ?_⟩
  obtain ⟨lastE, hlast⟩ : ∃ e, st.index.getLast? = some e := by
    cases hidx : st.index with
    | nil => exact absurd hidx hne
    | cons a t =>
        exact ⟨(a :: t).getLast (by simp), List.getLast?_eq_getLast _ _⟩
  simp only [rebuild_index]
  split
  next hc => exact absurd hc hnotover
  next hc =>
    split
    next hd =>
      simp only [hlast, hrb]
      split
      next hok => exact run_pass_events_head _ _ _ _ _ _ _
      next hok =>
        exfalso
        apply hok
        cases hk : kept.getLast? with
        | none => simp
        | some chk =>
            have hmemk : chk ∈ kept := by
              obtain ⟨hkn, heq⟩ := List.mem_getLast?_eq_getLast
                (show chk ∈ kept.getLast? from hk)
              rw [heq]; exact List.getLast_mem hkn
            have hmem : chk ∈ st.index := by
              rw [hsplit]
              exact List.mem_append_left _ hmemk
            have hle := hoff chk hmem
            have hfs : (fileStat f).size = f.bytes.length := rfl
            simp only [read_ok, decide_eq_true_eq]
            omega
    next hd =>
      exact absurd (by simpa [is_data_available] using hdata) hd

/-- Claim C4 witness: at a concrete three-entry index whose last group
has one continuation row, the hypotheses hold and the rollback drops
exactly two rows, reported through the restart event. -/
theorem c4_rollback_last_group_witness :
    (¬((fileStat fileC4).size < stC4.stat.size ∨
      (stC4.stat.size = (fileStat fileC4).size ∧
       stC4.stat.mtime ≠ (fileStat fileC4).mtime))) ∧
    stC4.index_size < (fileStat fileC4).size ∧
    stC4.index ≠ [] ∧
    (stC4.index.headD default).sub_offset = 0 ∧
    (∀ e ∈ stC4.index, e.offset ≤ stC4.index_size) ∧
    (∃ kept dhead dtail,
      stC4.index = kept ++ dhead :: dtail ∧
      dhead.sub_offset = 0 ∧
      (∀ e ∈ dtail, e.sub_offset ≠ 0) ∧
      rollbackIndex stC4.index = (kept, dtail.length + 1) ∧
      (rebuild_index [] fileC4 stC4).2.2.take 1 =
        [ObsEvent.restart (dtail.length + 1)]) :=
  ⟨by decide, by decide, by decide, by decide, by decide,
   c4_rollback_last_group [] fileC4 stC4 (by decide) (by decide) (by decide)
     (by decide) (by decide)⟩

/-- Claim C9 (confirmed).  `read_full_message` carries the precondition
that the queried position heads a logical-line group (`sub_offset = 0`,
the `require` in the source); whenever the underlying byte-range read
fails, the operation yields no output: the caller's buffer is returned
unmodified, and — as the return type of the model shows — no error
value or exception reaches the caller. -/
theorem c9_read_failure_no_output (f : FileContent) (st : LogfileState)
    (pos : Nat) (msg_out : List Nat) (max_lines : Nat)
    (_hsub : (st.index.getD pos default).sub_offset = 0)
    (hfail : read_ok f (st.index.getD pos default).offset
      ( line_length st pos true).1 = false) :
    (read_full_message f st pos msg_out max_lines).1 = msg_out := by
  simp only [read_full_message, hfail]
  rfl

/-- Claim C9 witness: a concrete index entry whose recorded extent
exceeds the live file; the read fails and the buffer is untouched. -/
theorem c9_read_failure_no_output_witness :
    (stC9.index.getD 0 default).sub_offset = 0 ∧
    read_ok fileC9 (stC9.index.getD 0 default).offset
      ( line_length stC9 0 true).1 = false ∧
    (read_full_message fileC9 stC9 0 (strBytes "orig") 4).1 = strBytes "orig" :=
  ⟨by decide, by decide,
   c9_read_failure_no_output fileC9 stC9 0 (strBytes "orig") 4
     (by decide) (by decide)⟩

/-- Claim C7 counterexample: with no format bound (auto-detection still
searching) and a non-empty index, a NoMatch line is appended with its
level left `LEVEL_UNKNOWN` and its continued flag clear — although it
is not the very first line in the file — contradicting the claim that
the level flag is marked continued whenever the line is not the first. -/
theorem c7_counterexample :
    stC7.format = none ∧
    stC7.index ≠ [] ∧
    ( process_prefix [] stC7 (strBytes "hello") liC7).2.index.length
      = stC7.index.length + 1 ∧
    (( process_prefix [] stC7 (strBytes "hello") liC7).2.index.getD 1
        default).level.continued = false ∧
    (( process_prefix [] stC7 (strBytes "hello") liC7).2.index.getD 1
        default).level = LevelFlags.unknown ∧
    (( process_prefix [] stC7 (strBytes "hello") liC7).2.index.getD 1
        default).time = 100 :=
  ⟨rfl, by decide, by decide, by decide, by decide, by decide⟩

/-- Claim C7 (amended).  For every scanned line classified NoMatch,
exactly one new entry is appended to the index, at the line's start
offset with sub-offset 0, inheriting the previous last entry's
timestamp, sub-second value, module id and operation id; its level flag
is marked continued only when a format is bound to the file, and is
defaulted to unknown when no format is bound or when this is the very
first line in the file (in which case the timestamp defaults to the
cached index time). -/
theorem c7_nomatch_continuation (roots : List LogFormat) (st : LogfileState)
    (sbr : List Nat) (li : LineInfo) (pt : Int) (st1 : LogfileState)
    (hfound : compute_found roots st sbr li =
      (ScanResult.scan_no_match, pt, st1)) :
    ∃ e, ( process_prefix roots st sbr li).2.index = st1.index ++ [e] ∧
      ( process_prefix roots st sbr li).1 = false ∧
      e.offset = li.li_file_range.fr_offset ∧
      e.sub_offset = 0 ∧
      e.valid_utf = li.li_valid_utf ∧
      e.time_skew = false ∧
      (match st1.index.getLast? with
       | none => e.time = st1.index_time ∧ e.millis = 0 ∧
           e.level = LevelFlags.unknown ∧ e.module_id = 0 ∧ e.opid = 0
       | some ll => e.time = ll.time ∧ e.millis = ll.millis ∧
           e.module_id = ll.module_id ∧ e.opid = ll.opid ∧
           e.level = (if st1.format.isSome then
               { ll.level with continued := true } else LevelFlags.unknown)) := by
  cases hl : st1.index.getLast? with
  | none =>
      refine ⟨⟨li.li_file_range.fr_offset, 0, st1.index_time, 0,
        LevelFlags.unknown, 0, 0, li.li_valid_utf, false⟩,
        ?_, ?_, rfl, rfl, rfl, rfl, ⟨rfl, rfl, rfl, rfl, rfl⟩⟩
      · simp only [ process_prefix, hfound, apply_found, hl]
      · simp only [ process_prefix, hfound, apply_found]
  | some ll =>
      refine ⟨⟨li.li_file_range.fr_offset, 0, ll.time, ll.millis,
        (if st1.format.isSome then { ll.level with continued := true }
         else LevelFlags.unknown), ll.module_id, ll.opid,
        li.li_valid_utf, false⟩,
        ?_, ?_, rfl, rfl, rfl, rfl, ⟨rfl, rfl, rfl, rfl, rfl⟩⟩
      · simp only [ process_prefix, hfound, apply_found, hl]
      · simp only [ process_prefix, hfound, apply_found]

/-- Claim C7 witness: a NoMatch line under a bound format inherits the
previous entry's metadata and is marked continued. -/
theorem c7_nomatch_continuation_witness :
    compute_found [] stC6 (strBytes "plain text") liC7 =
      (ScanResult.scan_no_match, 100,
       { stC6 with index := stC6.index }) ∧
    (∃ e, ( process_prefix [] stC6 (strBytes "plain text") liC7).2.index
        = { stC6 with index := stC6.index }.index ++ [e] ∧
      ( process_prefix [] stC6 (strBytes "plain text") liC7).1 = false ∧
      e.offset = liC7.li_file_range.fr_offset ∧
      e.sub_offset = 0 ∧
      e.valid_utf = liC7.li_valid_utf ∧
      e.time_skew = false ∧
      (match { stC6 with index := stC6.index }.index.getLast? with
       | none => e.time = { stC6 with index := stC6.index }.index_time ∧
           e.millis = 0 ∧ e.level = LevelFlags.unknown ∧
           e.module_id = 0 ∧ e.opid = 0
       | some ll => e.time = ll.time ∧ e.millis = ll.millis ∧
           e.module_id = ll.module_id ∧ e.opid = ll.opid ∧
           e.level = (if ({ stC6 with index := stC6.index } :
               LogfileState).format.isSome then
               { ll.level with continued := true } else LevelFlags.unknown))) :=
  ⟨rfl, c7_nomatch_continuation [] stC6 (strBytes "plain text") liC7 100
    { stC6 with index := stC6.index } rfl⟩

/-- Claim C10 (confirmed).  Whenever a per-line scan returns Match and
the timestamp of the first index entry after the scan differs from the
`prescan_time` recorded before the scan — a value that is recorded as 0
whenever no format was bound yet or the index was empty entering the
scan — ` process_prefix` signals a resort; since the pass result is
`NewOrder` as soon as any line signals one, a pass in which a format
first locks in on a line with a non-zero timestamp (the detection
scenario below), or in which rollback emptied the index before
re-matching its first line (the in-order two-line scenario below),
returns `NewOrder` even though every timestamp in the input is in
order. -/
theorem c10_prescan_time_new_order (roots : List LogFormat)
    (st : LogfileState) (sbr : List Nat) (li : LineInfo) (pt : Int)
    (st1 : LogfileState)
    (hfound : compute_found roots st sbr li = (ScanResult.scan_match, pt, st1))
    (hne : set_last_valid_utf st1.index li.li_valid_utf ≠ [])
    (hneq : pt ≠ ((set_last_valid_utf st1.index li.li_valid_utf).headD
      default).time) :
    ( process_prefix roots st sbr li).1 = true ∧
    (st.format = none → pt = 0) ∧
    (st.index = [] → pt = 0) ∧
    (rebuild_index [isoFmt] fileGarbage stFresh).1 = RebuildResult.new_order ∧
    (rebuild_index [] fileInOrder stBoundOne).1 = RebuildResult.new_order := by
  have hfmt_none : st.format = none → pt = 0 := by
    intro h
    simp only [compute_found, h] at hfound
    split at hfound
    · split at hfound <;>
        · simp only [Prod.mk.injEq] at hfound
          exact hfound.2.1.symm
    · simp only [Prod.mk.injEq] at hfound
      exact absurd hfound.1 (by simp)
  have hemp : (set_last_valid_utf st1.index li.li_valid_utf).isEmpty = false := by
    cases h : set_last_valid_utf st1.index li.li_valid_utf with
    | nil => exact absurd h hne
    | cons a t => rfl
  have hbeq : (pt == ((set_last_valid_utf st1.index li.li_valid_utf).headD
      default).time) = false := by
    simpa using hneq
  refine ⟨?_, hfmt_none, ?_, by decide, by decide⟩
  · simp only [ process_prefix, hfound, apply_found, hemp, hbeq]
    repeat' split
    all_goals rfl
  · intro h
    cases hf : st.format with
    | none => exact hfmt_none hf
    | some fmt =>
        simp only [compute_found, hf, h, List.isEmpty_nil, if_true] at hfound
        simp only [Prod.mk.injEq] at hfound
        exact hfound.2.1.symm

/-- Claim C10 witness: a bound format matching the first line of a pass
with an empty index records `prescan_time = 0`; the matched entry's
non-zero timestamp then differs and the resort flag is raised. -/
theorem c10_prescan_time_new_order_witness :
    compute_found [] stBoundEmpty (strBytes "10:00:02 a") ⟨⟨0, 11⟩, false, true⟩ =
      (ScanResult.scan_match, 0,
       { stBoundEmpty with
           index := [⟨0, 0, 36002, 0, ⟨2, false⟩, 0, 0, true, false⟩] }) ∧
    set_last_valid_utf
      ({ stBoundEmpty with
           index := [⟨0, 0, 36002, 0, ⟨2, false⟩, 0, 0, true, false⟩] } :
        LogfileState).index true ≠ [] ∧
    (0 : Int) ≠ ((set_last_valid_utf
      ({ stBoundEmpty with
           index := [⟨0, 0, 36002, 0, ⟨2, false⟩, 0, 0, true, false⟩] } :
        LogfileState).index true).headD default).time ∧
    (( process_prefix [] stBoundEmpty (strBytes "10:00:02 a")
        ⟨⟨0, 11⟩, false, true⟩).1 = true ∧
     (stBoundEmpty.format = none → (0 : Int) = 0) ∧
     (stBoundEmpty.index = [] → (0 : Int) = 0) ∧
     (rebuild_index [isoFmt] fileGarbage stFresh).1 = RebuildResult.new_order ∧
     (rebuild_index [] fileInOrder stBoundOne).1 = RebuildResult.new_order) :=
  ⟨rfl, by decide, by decide,
   c10_prescan_time_new_order [] stBoundEmpty (strBytes "10:00:02 a")
     ⟨⟨0, 11⟩, false, true⟩ 0
     { stBoundEmpty with
         index := [⟨0, 0, 36002, 0, ⟨2, false⟩, 0, 0, true, false⟩] }
     rfl (by decide) (by decide)⟩

/-- Claim C2 (confirmed).  For every per-line scan step of a rebuild
pass using a bound format that does not declare itself time-ordered,
when the newly matched entry's timestamp precedes the timestamp of the
last entry present before the new entries were added, no entry
timestamps are rewritten and no skew flags are set (the index is
exactly the post-scan index with only the last entry's UTF flag
recorded), the skew counter is unchanged, and the resort flag is
raised, so the pass result is `NewOrder`; concretely, the two-line
`10:00:02` / `10:00:01` input under the non-ordered format yields
`NewOrder` with both timestamps untouched and no skew flags. -/
theorem c2_unordered_resort (roots : List LogFormat) (st : LogfileState)
    (fmt : LogFormat) (sbr : List Nat) (li : LineInfo) (idx' : List logline)
    (hfmt : st.format = some fmt)
    (hord : fmt.time_ordered = false)
    (hscan : fmt.scan st.index li sbr = (ScanResult.scan_match, idx'))
    (hne : st.index ≠ [])
    (hgrow : st.index.length < idx'.length)
    (hlt : logline_lt
        ((set_last_valid_utf idx' li.li_valid_utf).getD st.index.length default)
        ((set_last_valid_utf idx' li.li_valid_utf).getD (st.index.length - 1)
          default) = true) :
    (( process_prefix roots st sbr li).1 = true ∧
     ( process_prefix roots st sbr li).2.index =
       set_last_valid_utf idx' li.li_valid_utf ∧
     ( process_prefix roots st sbr li).2.out_of_time_order_count =
       st.out_of_time_order_count) ∧
    ((rebuild_index [] fileTwoLines stBoundEmptyU).1 = RebuildResult.new_order ∧
     ((rebuild_index [] fileTwoLines stBoundEmptyU).2.1.index.getD 0
        default).time = 36002 ∧
     ((rebuild_index [] fileTwoLines stBoundEmptyU).2.1.index.getD 1
        default).time = 36001 ∧
     ((rebuild_index [] fileTwoLines stBoundEmptyU).2.1.index.getD 0
        default).time_skew = false ∧
     ((rebuild_index [] fileTwoLines stBoundEmptyU).2.1.index.getD 1
        default).time_skew = false) := by
  have hcond : 0 < st.index.length ∧
      st.index.length < (set_last_valid_utf idx' li.li_valid_utf).length := by
    refine ⟨List.length_pos.mpr hne, ?_⟩
    rw [set_last_valid_utf_length]
    exact hgrow
  refine ⟨?_, by decide, by decide, by decide, by decide, by decide⟩
  simp only [ process_prefix, compute_found, hfmt, hscan, apply_found]
  rw [if_pos hcond]
  simp only [hlt, if_true, hord]
  exact ⟨rfl, rfl, rfl⟩

/-- Claim C2 witness: the non-ordered format matching an out-of-order
line raises the resort flag and rewrites nothing. -/
theorem c2_unordered_resort_witness :
    ({ stBoundEmptyU with
        index := [⟨0, 0, 36002, 0, ⟨2, false⟩, 0, 0, true, false⟩] } :
      LogfileState).format = some hmsUnordered ∧
    hmsUnordered.time_ordered = false ∧
    hmsUnordered.scan
      ({ stBoundEmptyU with
          index := [⟨0, 0, 36002, 0, ⟨2, false⟩, 0, 0, true, false⟩] } :
        LogfileState).index ⟨⟨11, 11⟩, false, true⟩
      (strBytes "10:00:01 b") =
      (ScanResult.scan_match,
       [⟨0, 0, 36002, 0, ⟨2, false⟩, 0, 0, true, false⟩,
        ⟨11, 0, 36001, 0, ⟨2, false⟩, 0, 0, true, false⟩]) ∧
    ((( process_prefix []
        { stBoundEmptyU with
            index := [⟨0, 0, 36002, 0, ⟨2, false⟩, 0, 0, true, false⟩] }
        (strBytes "10:00:01 b") ⟨⟨11, 11⟩, false, true⟩).1 = true ∧
      ( process_prefix []
        { stBoundEmptyU with
            index := [⟨0, 0, 36002, 0, ⟨2, false⟩, 0, 0, true, false⟩] }
        (strBytes "10:00:01 b") ⟨⟨11, 11⟩, false, true⟩).2.index =
        set_last_valid_utf
          [⟨0, 0, 36002, 0, ⟨2, false⟩, 0, 0, true, false⟩,
           ⟨11, 0, 36001, 0, ⟨2, false⟩, 0, 0, true, false⟩] true ∧
      ( process_prefix []
        { stBoundEmptyU with
            index := [⟨0, 0, 36002, 0, ⟨2, false⟩, 0, 0, true, false⟩] }
        (strBytes "10:00:01 b") ⟨⟨11, 11⟩, false, true⟩).2.out_of_time_order_count =
        ({ stBoundEmptyU with
            index := [⟨0, 0, 36002, 0, ⟨2, false⟩, 0, 0, true, false⟩] } :
          LogfileState).out_of_time_order_count) ∧
     ((rebuild_index [] fileTwoLines stBoundEmptyU).1 = RebuildResult.new_order ∧
      ((rebuild_index [] fileTwoLines stBoundEmptyU).2.1.index.getD 0
         default).time = 36002 ∧
      ((rebuild_index [] fileTwoLines stBoundEmptyU).2.1.index.getD 1
         default).time = 36001 ∧
      ((rebuild_index [] fileTwoLines stBoundEmptyU).2.1.index.getD 0
         default).time_skew = false ∧
      ((rebuild_index [] fileTwoLines stBoundEmptyU).2.1.index.getD 1
         default).time_skew = false)) :=
  ⟨rfl, rfl, by decide,
   c2_unordered_resort []
     { stBoundEmptyU with
         index := [⟨0, 0, 36002, 0, ⟨2, false⟩, 0, 0, true, false⟩] }
     hmsUnordered (strBytes "10:00:01 b") ⟨⟨11, 11⟩, false, true⟩
     [⟨0, 0, 36002, 0, ⟨2, false⟩, 0, 0, true, false⟩,
      ⟨11, 0, 36001, 0, ⟨2, false⟩, 0, 0, true, false⟩]
     rfl rfl (by decide) (by decide) (by decide) (by decide)⟩

/-- Claim C1 counterexample: for exactly the input the claim names —
lines timestamped `10:00:02` then `10:00:01` indexed in one pass under
a bound, time-ordered format — the skew clamp and flag do happen, but
the pass result is `NewOrder`, not the claimed `NewLines`: the pass
re-matches its first line while the index is empty, so the first
entry's timestamp differs from the recorded pre-scan value of 0 and
the resort signal is raised. -/
theorem c1_counterexample :
    hmsOrdered.time_ordered = true ∧
    stBoundEmpty.index = [] ∧
    ((rebuild_index [] fileTwoLines stBoundEmpty).2.1.index.getD 1
       default).time = 36002 ∧
    ((rebuild_index [] fileTwoLines stBoundEmpty).2.1.index.getD 1
       default).time_skew = true ∧
    (rebuild_index [] fileTwoLines stBoundEmpty).1 = RebuildResult.new_order ∧
    (rebuild_index [] fileTwoLines stBoundEmpty).1 ≠ RebuildResult.new_lines := by
  refine ⟨by decide, by decide, by decide, by decide, by decide, by decide⟩

/-- Claim C1 (amended).  For every per-line scan step of a rebuild pass
using a bound format that declares itself time-ordered, when the newly
matched entry's timestamp precedes the timestamp of the last entry
present before the new entries were added, the engine rewrites the
timestamp and sub-second value of that entry and of every later entry
added from that point forward to equal the earlier entry's, sets the
time-skew flag on each rewritten entry, increments the skew counter,
and leaves the earlier entries untouched; for input lines timestamped
`10:00:02` then `10:00:01` indexed in one pass that begins with an
earlier entry still present after rollback, the `10:00:01` entry's
reported timestamp is clamped to `10:00:02`, its skew flag is set, and
the pass result is `NewLines`; but when the pass re-matches its first
line while the index is empty (as when those two lines are the entire
file), the pass result is `NewOrder` instead. -/
theorem c1_skew_clamp_amended (roots : List LogFormat) (st : LogfileState)
    (fmt : LogFormat) (sbr : List Nat) (li : LineInfo) (idx' : List logline)
    (hfmt : st.format = some fmt)
    (hord : fmt.time_ordered = true)
    (hscan : fmt.scan st.index li sbr = (ScanResult.scan_match, idx'))
    (hne : st.index ≠ [])
    (hgrow : st.index.length < idx'.length)
    (hlt : logline_lt
        ((set_last_valid_utf idx' li.li_valid_utf).getD st.index.length default)
        ((set_last_valid_utf idx' li.li_valid_utf).getD (st.index.length - 1)
          default) = true) :
    (( process_prefix roots st sbr li).2.out_of_time_order_count =
       st.out_of_time_order_count + 1 ∧
     (∀ i, st.index.length ≤ i → i < idx'.length →
       ( process_prefix roots st sbr li).2.index.getD i default =
         { (set_last_valid_utf idx' li.li_valid_utf).getD i default with
             time := ((set_last_valid_utf idx' li.li_valid_utf).getD
               (st.index.length - 1) default).time,
             millis := ((set_last_valid_utf idx' li.li_valid_utf).getD
               (st.index.length - 1) default).millis,
             time_skew := true }) ∧
     (∀ i, i < st.index.length →
       ( process_prefix roots st sbr li).2.index.getD i default =
         (set_last_valid_utf idx' li.li_valid_utf).getD i default)) ∧
    ((rebuild_index [] fileThreeLines stBoundTwo).1 = RebuildResult.new_lines ∧
     ((rebuild_index [] fileThreeLines stBoundTwo).2.1.index.getD 2
        default).time = 36002 ∧
     ((rebuild_index [] fileThreeLines stBoundTwo).2.1.index.getD 2
        default).time_skew = true ∧
     (rebuild_index [] fileTwoLines stBoundEmpty).1 = RebuildResult.new_order) := by
  have hcond : 0 < st.index.length ∧
      st.index.length < (set_last_valid_utf idx' li.li_valid_utf).length := by
    refine ⟨List.length_pos.mpr hne, ?_⟩
    rw [set_last_valid_utf_length]
    exact hgrow
  refine ⟨⟨?_, ?_, ?_⟩, by decide, by decide, by decide, by decide⟩
  · simp only [ process_prefix, compute_found, hfmt, hscan, apply_found]
    rw [if_pos hcond]
    simp only [hlt, if_true, hord]
  · intro i hge hi
    simp only [ process_prefix, compute_found, hfmt, hscan, apply_found]
    rw [if_pos hcond]
    simp only [hlt, if_true, hord]
    have hiA : i < (set_last_valid_utf idx' li.li_valid_utf).length := by
      rw [set_last_valid_utf_length]; exact hi
    exact apply_skew_getD_ge _ _ _ _ _ hge hiA
  · intro i hilt
    simp only [ process_prefix, compute_found, hfmt, hscan, apply_found]
    rw [if_pos hcond]
    simp only [hlt, if_true, hord]
    exact apply_skew_getD_lt _ _ _ _ _ hilt

/-- Claim C1 witness: the time-ordered format matching an out-of-order
line clamps the new entry to the previous timestamp, flags it, and
counts the skew. -/
theorem c1_skew_clamp_amended_witness :
    ({ stBoundEmpty with
        index := [⟨0, 0, 36002, 0, ⟨2, false⟩, 0, 0, true, false⟩] } :
      LogfileState).format = some hmsOrdered ∧
    hmsOrdered.time_ordered = true ∧
    hmsOrdered.scan
      ({ stBoundEmpty with
          index := [⟨0, 0, 36002, 0, ⟨2, false⟩, 0, 0, true, false⟩] } :
        LogfileState).index ⟨⟨11, 11⟩, false, true⟩
      (strBytes "10:00:01 b") =
      (ScanResult.scan_match,
       [⟨0, 0, 36002, 0, ⟨2, false⟩, 0, 0, true, false⟩,
        ⟨11, 0, 36001, 0, ⟨2, false⟩, 0, 0, true, false⟩]) ∧
    ((( process_prefix []
        { stBoundEmpty with
            index := [⟨0, 0, 36002, 0, ⟨2, false⟩, 0, 0, true, false⟩] }
        (strBytes "10:00:01 b") ⟨⟨11, 11⟩, false, true⟩).2.out_of_time_order_count =
        ({ stBoundEmpty with
            index := [⟨0, 0, 36002, 0, ⟨2, false⟩, 0, 0, true, false⟩] } :
          LogfileState).out_of_time_order_count + 1 ∧
      (∀ i, ({ stBoundEmpty with
            index := [⟨0, 0, 36002, 0, ⟨2, false⟩, 0, 0, true, false⟩] } :
          LogfileState).index.length ≤ i →
        i < ([⟨0, 0, 36002, 0, ⟨2, false⟩, 0, 0, true, false⟩,
              ⟨11, 0, 36001, 0, ⟨2, false⟩, 0, 0, true, false⟩] :
             List logline).length →
        ( process_prefix []
          { stBoundEmpty with
              index := [⟨0, 0, 36002, 0, ⟨2, false⟩, 0, 0, true, false⟩] }
          (strBytes "10:00:01 b") ⟨⟨11, 11⟩, false, true⟩).2.index.getD i default =
          { (set_last_valid_utf
              [⟨0, 0, 36002, 0, ⟨2, false⟩, 0, 0, true, false⟩,
               ⟨11, 0, 36001, 0, ⟨2, false⟩, 0, 0, true, false⟩] true).getD i
              default with
              time := ((set_last_valid_utf
                [⟨0, 0, 36002, 0, ⟨2, false⟩, 0, 0, true, false⟩,
                 ⟨11, 0, 36001, 0, ⟨2, false⟩, 0, 0, true, false⟩] true).getD
                (({ stBoundEmpty with
                    index := [⟨0, 0, 36002, 0, ⟨2, false⟩, 0, 0, true, false⟩] } :
                  LogfileState).index.length - 1) default).time,
              millis := ((set_last_valid_utf
                [⟨0, 0, 36002, 0, ⟨2, false⟩, 0, 0, true, false⟩,
                 ⟨11, 0, 36001, 0, ⟨2, false⟩, 0, 0, true, false⟩] true).getD
                (({ stBoundEmpty with
                    index := [⟨0, 0, 36002, 0, ⟨2, false⟩, 0, 0, true, false⟩] } :
                  LogfileState).index.length - 1) default).millis,
              time_skew := true }) ∧
      (∀ i, i < ({ stBoundEmpty with
            index := [⟨0, 0, 36002, 0, ⟨2, false⟩, 0, 0, true, false⟩] } :
          LogfileState).index.length →
        ( process_prefix []
          { stBoundEmpty with
              index := [⟨0, 0, 36002, 0, ⟨2, false⟩, 0, 0, true, false⟩] }
          (strBytes "10:00:01 b") ⟨⟨11, 11⟩, false, true⟩).2.index.getD i default =
          (set_last_valid_utf
            [⟨0, 0, 36002, 0, ⟨2, false⟩, 0, 0, true, false⟩,
             ⟨11, 0, 36001, 0, ⟨2, false⟩, 0, 0, true, false⟩] true).getD i
            default)) ∧
     ((rebuild_index [] fileThreeLines stBoundTwo).1 = RebuildResult.new_lines ∧
      ((rebuild_index [] fileThreeLines stBoundTwo).2.1.index.getD 2
         default).time = 36002 ∧
      ((rebuild_index [] fileThreeLines stBoundTwo).2.1.index.getD 2
         default).time_skew = true ∧
      (rebuild_index [] fileTwoLines stBoundEmpty).1 =
        RebuildResult.new_order)) :=
  ⟨rfl, rfl, by decide,
   c1_skew_clamp_amended []
     { stBoundEmpty with
         index := [⟨0, 0, 36002, 0, ⟨2, false⟩, 0, 0, true, false⟩] }
     hmsOrdered (strBytes "10:00:01 b") ⟨⟨11, 11⟩, false, true⟩
     [⟨0, 0, 36002, 0, ⟨2, false⟩, 0, 0, true, false⟩,
      ⟨11, 0, 36001, 0, ⟨2, false⟩, 0, 0, true, false⟩]
     rfl rfl (by decide) (by decide) (by decide) (by decide)⟩

theorem getLastD_irrel (l : List logline) (d1 d2 : logline) (hne : l ≠ []) :
    l.getLastD d1 = l.getLastD d2 := by
  cases l with
  | nil => exact absurd rfl hne
  | cons e rest => rfl

theorem getD_last_eq_getLastD (l : List logline) (hne : l ≠ []) :
    l.getD (l.length - 1) default = l.getLastD default := by
  induction l with
  | nil => exact absurd rfl hne
  | cons e rest ih =>
      cases rest with
      | nil => rfl
      | cons e' rest' =>
          have hlen : (e :: e' :: rest').length - 1 =
              ((e' :: rest').length - 1) + 1 := by
            simp [List.length_cons]
          rw [hlen, List.getD_cons_succ, ih (by simp)]
          exact getLastD_irrel (e' :: rest') default e (by simp)

/-- Claim C3 (confirmed).  When auto-detection first matches a format
on a line, the format is bound, the file's content identity hash is
recomputed from the raw bytes of that first matched line (replacing the
filename-derived hash assigned at construction), and every index entry
buffered before that line has its timestamp and sub-second value
overwritten to equal the matched line's (the last entry's); for input
`"garbage\ngarbage2\n2023-01-01T10:00:00 INFO start\n"` under an
ISO-prefix format, after one rebuild all three entries report the ISO
line's timestamp and the content identity is derived from the third
line's bytes, not the filename. -/
theorem c3_backfill_lockin (rest : List LogFormat) (st : LogfileState)
    (fmt : LogFormat) (sbr : List Nat) (li : LineInfo) (idx' : List logline)
    (hfmt : st.format = none) (hdet : st.detect_format = true)
    (hcap : st.index.length < MAX_UNRECOGNIZED_LINES)
    (hname : fmt.match_name st.filename = true)
    (hscan : fmt.scan st.index li sbr = (ScanResult.scan_match, idx'))
    (hne : idx' ≠ []) :
    (( process_prefix (fmt :: rest) st sbr li).2.format = some fmt ∧
     ( process_prefix (fmt :: rest) st sbr li).2.content_id =
       hash_string (bytesToString sbr) ∧
     (∀ i, i + 1 < idx'.length →
       (( process_prefix (fmt :: rest) st sbr li).2.index.getD i
          default).time = (idx'.getLastD default).time ∧
       (( process_prefix (fmt :: rest) st sbr li).2.index.getD i
          default).millis = (idx'.getLastD default).millis)) ∧
    (stFresh.content_id = hash_string "fresh.log" ∧
     (rebuild_index [isoFmt] fileGarbage stFresh).2.1.index.length = 3 ∧
     ((rebuild_index [isoFmt] fileGarbage stFresh).2.1.index.getD 0
        default).time = 1672567200 ∧
     ((rebuild_index [isoFmt] fileGarbage stFresh).2.1.index.getD 1
        default).time = 1672567200 ∧
     ((rebuild_index [isoFmt] fileGarbage stFresh).2.1.index.getD 2
        default).time = 1672567200 ∧
     (rebuild_index [isoFmt] fileGarbage stFresh).2.1.content_id =
       hash_string "2023-01-01T10:00:00 INFO start" ∧
     (rebuild_index [isoFmt] fileGarbage stFresh).2.1.content_id ≠
       hash_string "fresh.log") := by
  have hcf : compute_found (fmt :: rest) st sbr li =
      (ScanResult.scan_match, 0,
       { st with index := backfill idx', format := some fmt,
                 content_id := hash_string (bytesToString sbr) }) := by
    simp only [compute_found, hfmt]
    split
    next hcond =>
      simp only [detect_loop, hname, if_true, hscan]
    next hcond =>
      exfalso
      apply hcond
      rw [hdet]
      simpa using hcap
  obtain ⟨last, hlast⟩ : ∃ e, idx'.getLast? = some e := by
    cases hidx : idx' with
    | nil => exact absurd hidx hne
    | cons a t =>
        exact ⟨(a :: t).getLast (by simp), List.getLast?_eq_getLast _ _⟩
  have hgld : idx'.getLastD default = last := by
    rw [List.getLastD_eq_getLast?, hlast]; rfl
  have hbf : backfill idx' = backfill_times last.time last.millis idx' := by
    rw [backfill, hlast]
  have hA : ∀ j, j + 1 < idx'.length →
      ((set_last_valid_utf (backfill idx') li.li_valid_utf).getD j
        default).time = last.time ∧
      ((set_last_valid_utf (backfill idx') li.li_valid_utf).getD j
        default).millis = last.millis := by
    intro j hj
    have h1 := set_last_valid_utf_getD_time (backfill idx') li.li_valid_utf j
    have h2 : (backfill idx').getD j default =
        { idx'.getD j default with time := last.time, millis := last.millis } := by
      rw [hbf]; exact backfill_times_getD_lt _ _ _ _ hj
    rw [h2] at h1
    exact ⟨h1.1, h1.2⟩
  have hlenA : (set_last_valid_utf (backfill idx') li.li_valid_utf).length
      = idx'.length := by
    rw [set_last_valid_utf_length, hbf, backfill_times_length]
  refine ⟨⟨?_, ?_, ?_⟩, rfl, by decide, by decide, by decide, by decide,
    by decide, by decide⟩
  · simp only [ process_prefix, hcf, apply_found]
    repeat' split
    all_goals rfl
  · simp only [ process_prefix, hcf, apply_found]
    repeat' split
    all_goals rfl
  · intro i hi
    rw [← hgld] at hA
    simp only [ process_prefix, hcf, apply_found]
    split
    next hcond =>
      split
      next hskew =>
        split
        next hord' =>
          rcases Nat.lt_or_ge i st.index.length with hilt | hige
          · rw [apply_skew_getD_lt _ _ _ _ _ hilt]
            exact hA i hi
          · have hiA : i <
                (set_last_valid_utf (backfill idx') li.li_valid_utf).length := by
              rw [hlenA]; omega
            rw [apply_skew_getD_ge _ _ _ _ _ hige hiA]
            have hpre : (st.index.length - 1) + 1 < idx'.length := by
              obtain ⟨hpos, hlt2⟩ := hcond
              rw [hlenA] at hlt2
              omega
            have hstl := hA (st.index.length - 1) hpre
            exact ⟨hstl.1, hstl.2⟩
        next hord' => exact hA i hi
      next hskew => exact hA i hi
    next hcond => exact hA i hi

/-- Claim C3 witness: detection locking in on the third line of the
backfill scenario, with two zero-time placeholder entries buffered. -/
theorem c3_backfill_lockin_witness :
    ({ stFresh with
        index := [⟨0, 0, 0, 0, ⟨0, false⟩, 0, 0, true, false⟩,
                  ⟨8, 0, 0, 0, ⟨0, false⟩, 0, 0, true, false⟩] } :
      LogfileState).format = none ∧
    ({ stFresh with
        index := [⟨0, 0, 0, 0, ⟨0, false⟩, 0, 0, true, false⟩,
                  ⟨8, 0, 0, 0, ⟨0, false⟩, 0, 0, true, false⟩] } :
      LogfileState).detect_format = true ∧
    isoFmt.match_name
      ({ stFresh with
          index := [⟨0, 0, 0, 0, ⟨0, false⟩, 0, 0, true, false⟩,
                    ⟨8, 0, 0, 0, ⟨0, false⟩, 0, 0, true, false⟩] } :
        LogfileState).filename = true ∧
    isoFmt.scan
      ({ stFresh with
          index := [⟨0, 0, 0, 0, ⟨0, false⟩, 0, 0, true, false⟩,
                    ⟨8, 0, 0, 0, ⟨0, false⟩, 0, 0, true, false⟩] } :
        LogfileState).index ⟨⟨17, 31⟩, false, true⟩
      (strBytes "2023-01-01T10:00:00 INFO start") =
      (ScanResult.scan_match,
       [⟨0, 0, 0, 0, ⟨0, false⟩, 0, 0, true, false⟩,
        ⟨8, 0, 0, 0, ⟨0, false⟩, 0, 0, true, false⟩,
        ⟨17, 0, 1672567200, 0, ⟨2, false⟩, 0, 0, true, false⟩]) ∧
    ((( process_prefix [isoFmt]
        { stFresh with
            index := [⟨0, 0, 0, 0, ⟨0, false⟩, 0, 0, true, false⟩,
                      ⟨8, 0, 0, 0, ⟨0, false⟩, 0, 0, true, false⟩] }
        (strBytes "2023-01-01T10:00:00 INFO start")
        ⟨⟨17, 31⟩, false, true⟩).2.format = some isoFmt ∧
      ( process_prefix [isoFmt]
        { stFresh with
            index := [⟨0, 0, 0, 0, ⟨0, false⟩, 0, 0, true, false⟩,
                      ⟨8, 0, 0, 0, ⟨0, false⟩, 0, 0, true, false⟩] }
        (strBytes "2023-01-01T10:00:00 INFO start")
        ⟨⟨17, 31⟩, false, true⟩).2.content_id =
        hash_string (bytesToString (strBytes "2023-01-01T10:00:00 INFO start")) ∧
      (∀ i, i + 1 <
          ([⟨0, 0, 0, 0, ⟨0, false⟩, 0, 0, true, false⟩,
            ⟨8, 0, 0, 0, ⟨0, false⟩, 0, 0, true, false⟩,
            ⟨17, 0, 1672567200, 0, ⟨2, false⟩, 0, 0, true, false⟩] :
           List logline).length →
        (( process_prefix [isoFmt]
           { stFresh with
               index := [⟨0, 0, 0, 0, ⟨0, false⟩, 0, 0, true, false⟩,
                         ⟨8, 0, 0, 0, ⟨0, false⟩, 0, 0, true, false⟩] }
           (strBytes "2023-01-01T10:00:00 INFO start")
           ⟨⟨17, 31⟩, false, true⟩).2.index.getD i default).time =
          (([⟨0, 0, 0, 0, ⟨0, false⟩, 0, 0, true, false⟩,
             ⟨8, 0, 0, 0, ⟨0, false⟩, 0, 0, true, false⟩,
             ⟨17, 0, 1672567200, 0, ⟨2, false⟩, 0, 0, true, false⟩] :
            List logline).getLastD default).time ∧
        (( process_prefix [isoFmt]
           { stFresh with
               index := [⟨0, 0, 0, 0, ⟨0, false⟩, 0, 0, true, false⟩,
                         ⟨8, 0, 0, 0, ⟨0, false⟩, 0, 0, true, false⟩] }
           (strBytes "2023-01-01T10:00:00 INFO start")
           ⟨⟨17, 31⟩, false, true⟩).2.index.getD i default).millis =
          (([⟨0, 0, 0, 0, ⟨0, false⟩, 0, 0, true, false⟩,
             ⟨8, 0, 0, 0, ⟨0, false⟩, 0, 0, true, false⟩,
             ⟨17, 0, 1672567200, 0, ⟨2, false⟩, 0, 0, true, false⟩] :
            List logline).getLastD default).millis)) ∧
     (stFresh.content_id = hash_string "fresh.log" ∧
      (rebuild_index [isoFmt] fileGarbage stFresh).2.1.index.length = 3 ∧
      ((rebuild_index [isoFmt] fileGarbage stFresh).2.1.index.getD 0
         default).time = 1672567200 ∧
      ((rebuild_index [isoFmt] fileGarbage stFresh).2.1.index.getD 1
         default).time = 1672567200 ∧
      ((rebuild_index [isoFmt] fileGarbage stFresh).2.1.index.getD 2
         default).time = 1672567200 ∧
      (rebuild_index [isoFmt] fileGarbage stFresh).2.1.content_id =
        hash_string "2023-01-01T10:00:00 INFO start" ∧
      (rebuild_index [isoFmt] fileGarbage stFresh).2.1.content_id ≠
        hash_string "fresh.log")) :=
  ⟨rfl, rfl, rfl, by decide,
   c3_backfill_lockin []
     { stFresh with
         index := [⟨0, 0, 0, 0, ⟨0, false⟩, 0, 0, true, false⟩,
                   ⟨8, 0, 0, 0, ⟨0, false⟩, 0, 0, true, false⟩] }
     isoFmt (strBytes "2023-01-01T10:00:00 INFO start")
     ⟨⟨17, 31⟩, false, true⟩
     [⟨0, 0, 0, 0, ⟨0, false⟩, 0, 0, true, false⟩,
      ⟨8, 0, 0, 0, ⟨0, false⟩, 0, 0, true, false⟩,
      ⟨17, 0, 1672567200, 0, ⟨2, false⟩, 0, 0, true, false⟩]
     rfl rfl (by decide) rfl (by decide) (by decide)⟩

/-- Claim C8 counterexample: for two single-row groups at offsets 0 and
10, the claim's reading — the byte distance from the queried entry's
start offset to the next differing entry — gives 10, but `line_length`
returns 9: the source also subtracts the one terminator byte in this
middle case, not only in the last-group case. -/
theorem c8_counterexample :
    line_length_claimed stC8 0 false = 10 ∧
    ( line_length stC8 0 false).1 = 9 ∧
    ( line_length stC8 0 false).1 ≠ line_length_claimed stC8 0 false := by
  refine ⟨by decide, by decide, by decide⟩

/-- Claim C8 (amended).  `line_length(position, include_continues)`
scans forward through the index to the next entry whose start offset
differs (also skipping over continuation rows when they are requested
to be included) and returns the byte distance from the queried entry's
start offset to that entry's start offset minus one terminator byte;
when no such later entry exists, it returns the indexed byte extent
minus the start offset, subtracting one terminator byte when that
difference is positive, unless the file's tail is currently partial —
so a file ending in a line with no trailing newline reports a
final-entry length equal to the remaining bytes with no terminator
subtracted.  (Stated away from the one-entry length cache: the cache is
bypassed when continuation rows are included or when it is empty.) -/
theorem c8_line_length_amended (st : LogfileState) (pos : Nat) (ic : Bool)
    (hcache : ic = true ∨ st.next_line_cache = none) :
    (( line_length st pos ic).1 =
      (match findNext (st.index.drop (pos + 1))
          ((st.index.getD pos default).offset) ic with
       | some nl => nl.offset - (st.index.getD pos default).offset - 1
       | none =>
           if 0 < st.index_size - (st.index.getD pos default).offset ∧
               !st.open_ended then
             st.index_size - (st.index.getD pos default).offset - 1
           else st.index_size - (st.index.getD pos default).offset) ∧
     (findNext (st.index.drop (pos + 1))
         ((st.index.getD pos default).offset) ic = none →
       ( line_length st pos ic).1 =
         (if 0 < st.index_size - (st.index.getD pos default).offset ∧
             !st.open_ended then
            st.index_size - (st.index.getD pos default).offset - 1
          else st.index_size - (st.index.getD pos default).offset))) ∧
    (( line_length stC8 0 false).1 + 1 = line_length_claimed stC8 0 false ∧
     ( line_length stC8p 0 false).1 = 32 ∧
     stC8p.index_size - (stC8p.index.getD 0 default).offset = 32 ∧
     stC8p.open_ended = true) := by
  have hmain : ( line_length st pos ic).1 =
      (match findNext (st.index.drop (pos + 1))
          ((st.index.getD pos default).offset) ic with
       | some nl => nl.offset - (st.index.getD pos default).offset - 1
       | none =>
           if 0 < st.index_size - (st.index.getD pos default).offset ∧
               !st.open_ended then
             st.index_size - (st.index.getD pos default).offset - 1
           else st.index_size - (st.index.getD pos default).offset) := by
    rcases hcache with hic | hnc
    · subst hic
      simp only [ line_length, Bool.not_true, Bool.false_eq_true, if_neg,
        ite_false]
      cases hf : findNext (st.index.drop (pos + 1))
          ((st.index.getD pos default).offset) true with
      | none => rfl
      | some nl => rfl
    · simp only [ line_length, hnc]
      cases hf : findNext (st.index.drop (pos + 1))
          ((st.index.getD pos default).offset) ic with
      | none => cases ic <;> rfl
      | some nl => cases ic <;> rfl
  refine ⟨⟨hmain, ?_⟩, by decide, by decide, by decide, by decide⟩
  intro hnone
  rw [hmain, hnone]

/-- Claim C8 witness: the partial-tail state with an empty cache. -/
theorem c8_line_length_amended_witness :
    (false = true ∨ stC8p.next_line_cache = none) ∧
    ((( line_length stC8p 0 false).1 =
      (match findNext (stC8p.index.drop (0 + 1))
          ((stC8p.index.getD 0 default).offset) false with
       | some nl => nl.offset - (stC8p.index.getD 0 default).offset - 1
       | none =>
           if 0 < stC8p.index_size - (stC8p.index.getD 0 default).offset ∧
               !stC8p.open_ended then
             stC8p.index_size - (stC8p.index.getD 0 default).offset - 1
           else stC8p.index_size - (stC8p.index.getD 0 default).offset) ∧
     (findNext (stC8p.index.drop (0 + 1))
         ((stC8p.index.getD 0 default).offset) false = none →
       ( line_length stC8p 0 false).1 =
         (if 0 < stC8p.index_size - (stC8p.index.getD 0 default).offset ∧
             !stC8p.open_ended then
            stC8p.index_size - (stC8p.index.getD 0 default).offset - 1
          else stC8p.index_size - (stC8p.index.getD 0 default).offset))) ∧
    (( line_length stC8 0 false).1 + 1 = line_length_claimed stC8 0 false ∧
     ( line_length stC8p 0 false).1 = 32 ∧
     stC8p.index_size - (stC8p.index.getD 0 default).offset = 32 ∧
     stC8p.open_ended = true)) :=
  ⟨Or.inr rfl, c8_line_length_amended stC8p 0 false (Or.inr rfl)⟩
